import Mathlib

/-!
Verification of the video contact-sheet generator (`video_sheet_generator.py`).

The pure computations of the script (timestamp sampling, timecode formatting,
layout arithmetic, path manipulation, outcome counting) are embedded directly.
External effects (running the probe tool, extracting frames, the filesystem,
image IO errors) are passed in explicitly as data: each subprocess call or
filesystem query becomes an input describing its outcome, mirroring exactly
where the Python code observes it.  Python floats are modelled as exact
rationals (ℚ); binary floating-point rounding is not modelled, and none of the
claims under consideration depends on it.
-/

namespace VideoSheet

/-! ## Configuration constants (module-level config in the script) -/

def SHEET_WIDTH : ℕ := 1920

def GRID_COLUMNS : ℕ := 5

def GRID_ROWS : ℕ := 5

def MARGIN : ℕ := 5

def JPEG_QUALITY : ℕ := 90

def FONT_SIZE : ℕ := 22

def TIME_FONT_SIZE : ℕ := 18

def VIDEO_EXTENSIONS : List String :=
  [".mp4", ".mkv", ".avi", ".mov", ".wmv", ".flv", ".webm", ".m4v", ".mpg", ".mpeg", ".3gp"]

def MAX_WORKERS : ℕ := 4

/-! ## Python string/path primitives used by the script -/

/-- Python `str.strip()`: remove whitespace from both ends. -/
def pyStrip (s : String) : String :=
  ⟨((s.data.dropWhile Char.isWhitespace).reverse.dropWhile Char.isWhitespace).reverse⟩

/-- Python `str.lower()`, restricted to the ASCII case mapping (the extensions
compared against are ASCII). -/
def pyLower (s : String) : String :=
  ⟨s.data.map Char.toLower⟩

/-- First occurrence split: `breakAtFirst c l = some (a, b)` when `l = a ++ c :: b`
with `c ∉ a`; `none` when `c ∉ l`. -/
def breakAtFirst (c : Char) : List Char → Option (List Char × List Char)
  | [] => none
  | x :: xs =>
    if x = c then some ([], xs)
    else
      match breakAtFirst c xs with
      | none => none
      | some (a, b) => some (x :: a, b)

/-- Last occurrence split: `splitOnLast c l = some (a, b)` when `l = a ++ c :: b`
with `c ∉ b`; `none` when `c ∉ l`. -/
def splitOnLast (c : Char) (l : List Char) : Option (List Char × List Char) :=
  match breakAtFirst c l.reverse with
  | none => none
  | some (a, b) => some (b.reverse, a.reverse)

/-- Split a path into the part up to and including the last `/` and the part
after it (the basename).  Mirrors the `sepIndex` computation of
`posixpath.splitext`. -/
def pathDirBase (p : List Char) : List Char × List Char :=
  match splitOnLast '/' p with
  | none => ([], p)
  | some (d, b) => (d ++ ['/'], b)

/-- `os.path.splitext` (posix flavour) on character lists: the extension starts
at the last dot of the basename, provided some earlier character of the
basename is not a dot (a basename of only leading dots has no extension). -/
def splitextData (p : List Char) : List Char × List Char :=
  match splitOnLast '.' (pathDirBase p).2 with
  | none => (p, [])
  | some (pre, post) =>
    if pre.any (fun c => c != '.') then ((pathDirBase p).1 ++ pre, '.' :: post)
    else (p, [])

/-- `os.path.splitext` on strings. -/
def splitext (p : String) : String × String :=
  ((⟨(splitextData p.data).1⟩ : String), (⟨(splitextData p.data).2⟩ : String))

/-- `os.path.basename` (posix flavour): the part after the last `/`. -/
def basename (p : String) : String :=
  match splitOnLast '/' p.data with
  | none => p
  | some (_, b) => (⟨b⟩ : String)

/-- `os.path.join` (posix flavour, two arguments). -/
def osJoin (a b : String) : String :=
  if b.data.head? = some '/' then b
  else if a = "" ∨ a.data.getLast? = some '/' then a ++ b
  else a ++ "/" ++ b

/-! ## Python `float()` parsing, over exact rationals

Models the numeric forms accepted by `float` on an already-stripped string:
optional sign, then digits with an optional fractional part (at least one
digit overall), then an optional `e`/`E` exponent.  `inf`/`nan` spellings and
digit-grouping underscores are not modelled; the claims only depend on
emptiness, parse success/failure and the value on plain decimals. -/

def digitsToNat (ds : List Char) : ℕ :=
  ds.foldl (fun a c => 10 * a + (c.toNat - 48)) 0

def parseExponentPart (cs : List Char) : Option ℤ :=
  match cs with
  | '+' :: rest =>
    if rest ≠ [] ∧ rest.all Char.isDigit then some (digitsToNat rest : ℤ) else none
  | '-' :: rest =>
    if rest ≠ [] ∧ rest.all Char.isDigit then some (-(digitsToNat rest : ℤ)) else none
  | _ =>
    if cs ≠ [] ∧ cs.all Char.isDigit then some (digitsToNat cs : ℤ) else none

def parseMantissaPart (cs : List Char) : Option (ℚ × List Char) :=
  let intPart := cs.takeWhile Char.isDigit
  let rest := cs.dropWhile Char.isDigit
  match rest with
  | '.' :: rest2 =>
    let fracPart := rest2.takeWhile Char.isDigit
    let rest3 := rest2.dropWhile Char.isDigit
    if intPart = [] ∧ fracPart = [] then none
    else some ((digitsToNat intPart : ℚ) + (digitsToNat fracPart : ℚ) / (10 ^ fracPart.length), rest3)
  | _ => if intPart = [] then none else some ((digitsToNat intPart : ℚ), rest)

def parseFloatQ (s : String) : Option ℚ :=
  let signAndRest : ℚ × List Char :=
    match s.data with
    | '+' :: r => (1, r)
    | '-' :: r => (-1, r)
    | _ => (1, s.data)
  match parseMantissaPart signAndRest.2 with
  | none => none
  | some (m, rest) =>
    match rest with
    | [] => some (signAndRest.1 * m)
    | 'e' :: er => (parseExponentPart er).map (fun e => signAndRest.1 * m * (10 : ℚ) ^ e)
    | 'E' :: er => (parseExponentPart er).map (fun e => signAndRest.1 * m * (10 : ℚ) ^ e)
    | _ => none

/-! ## `format_timestamp` -/

/-- Python `int()` on a float: truncation toward zero, over ℚ. -/
def truncQ (q : ℚ) : ℤ :=
  if 0 ≤ q then ⌊q⌋ else -⌊-q⌋

/-- Python `f"{n:02}"`: pad with a leading zero up to width 2. -/
def pad2 (n : ℤ) : String :=
  if (toString n).length < 2 then "0" ++ toString n else toString n

/-- `format_timestamp`: `m, s = divmod(int(seconds), 60); h, m = divmod(m, 60)`,
rendered zero-padded.  Python `divmod` is floor division; `Int.ediv`/`Int.emod`
agree with it for the positive divisor 60. -/
def format_timestamp (seconds : ℚ) : String :=
  let t := truncQ seconds
  let s := t % 60
  let m := t / 60
  let m2 := m % 60
  let h := m / 60
  pad2 h ++ ":" ++ pad2 m2 ++ ":" ++ pad2 s

/-! ## `generate_timestamps` -/

def generate_timestamps (duration : ℚ) (total : ℕ) : List ℚ :=
  if duration ≤ 0 then List.replicate total 0
  else (List.range total).map (fun i : ℕ => duration / ((total : ℚ) + 2) * ((i : ℚ) + 1))

/-! ## `get_video_info`

The script issues four `ffprobe` sub-queries (duration, width, height, codec)
with `check=True` and then reads the file size.  Each of the five external
observations is an input: `none` means that step raised
(`CalledProcessError` for a non-zero exit, `FileNotFoundError` for a missing
tool, `OSError` from `os.path.getsize`) — every raise is caught by the two
`except` clauses and the function returns `None`.  `some s` is the captured
stdout text (resp. the size in bytes). -/

structure ProbeEnv where
  durationRun : Option String
  widthRun : Option String
  heightRun : Option String
  codecRun : Option String
  sizeRun : Option ℕ
  deriving DecidableEq

structure VideoInfo where
  duration : ℚ
  resolution : String
  size : String
  codec : String
  deriving DecidableEq

/-- Two-decimal fixed-point rendering of a nonnegative rational
(`f"{x:.2f}"`), with round-half-to-even as Python's float formatting uses. -/
def roundHalfEven (q : ℚ) : ℤ :=
  if q - ⌊q⌋ < 1 / 2 then ⌊q⌋
  else if 1 / 2 < q - ⌊q⌋ then ⌊q⌋ + 1
  else if Int.emod ⌊q⌋ 2 = 0 then ⌊q⌋ else ⌊q⌋ + 1

def format2f (q : ℚ) : String :=
  let c := roundHalfEven (q * 100)
  toString (Int.ediv c 100) ++ "." ++ pad2 (Int.emod c 100)

def get_video_info (env : ProbeEnv) : Option VideoInfo :=
  match env.durationRun with
  | none => none
  | some dOut =>
    match (if pyStrip dOut = "" then some (0 : ℚ) else parseFloatQ (pyStrip dOut)) with
    | none => none
    | some duration =>
      match env.widthRun with
      | none => none
      | some wOut =>
        match env.heightRun with
        | none => none
        | some hOut =>
          match env.codecRun with
          | none => none
          | some cOut =>
            match env.sizeRun with
            | none => none
            | some bytes =>
              some
                { duration := duration
                  resolution :=
                    if pyStrip wOut ≠ "" ∧ pyStrip hOut ≠ "" then
                      pyStrip wOut ++ "x" ++ pyStrip hOut
                    else "Unknown"
                  size := format2f ((bytes : ℚ) / (1024 * 1024)) ++ " MB"
                  codec := if pyStrip cOut ≠ "" then pyStrip cOut else "Unknown" }

/-! ## `build_sheet`

Thumbnails are the `(path, sec)` pairs produced by `extract_thumbnails`; the
image behind each path is modelled by its pixel dimensions, and `broken`
records whether `Image.open`/`resize`/`paste` raises for that entry (the
per-thumbnail `try`/`except` skips it).  The sheet is modelled by its size and
the list of grid placements performed (index, position, pasted size). -/

structure Img where
  width : ℕ
  height : ℕ
  deriving DecidableEq

structure Thumb where
  img : Img
  ts : ℚ
  broken : Bool
  deriving DecidableEq

structure Placement where
  idx : ℕ
  x : ℕ
  y : ℕ
  w : ℕ
  h : ℕ
  deriving DecidableEq

structure Sheet where
  width : ℕ
  height : ℕ
  placements : List Placement
  deriving DecidableEq

/-- The five header lines drawn at the top of the sheet. -/
def header_lines (video_path : String) (info : VideoInfo) : List String :=
  ["Filename: " ++ basename video_path,
   "Size: " ++ info.size,
   "Resolution: " ++ info.resolution,
   "Video Codec: " ++ info.codec,
   "Duration: " ++ format_timestamp info.duration]

/-- The `for idx, (thumb_path, ts) in enumerate(thumbnails)` loop: every entry
is pasted at its row-major coordinates (there is no bound on `idx` in the
code); an entry whose image operations raise is skipped. -/
def grid_placements (tw th y0 : ℕ) : ℕ → List Thumb → List Placement
  | _, [] => []
  | idx, t :: rest =>
    (if t.broken then []
     else [{ idx := idx
             x := MARGIN + (idx % GRID_COLUMNS) * (tw + MARGIN)
             y := y0 + (idx / GRID_COLUMNS) * (th + MARGIN)
             w := tw, h := th }])
      ++ grid_placements tw th y0 (idx + 1) rest

def build_sheet (video_path : String) (thumbnails : List Thumb) (info : VideoInfo) :
    Option Sheet :=
  match thumbnails with
  | [] => none
  | first :: _ =>
    -- `Image.open(thumbnails[0][0])` raising, or a zero width making the
    -- ratio computation raise, is caught by the outer `except` → `None`.
    if first.broken then none
    else if first.img.width = 0 then none
    else
      let thumb_width := (SHEET_WIDTH - (GRID_COLUMNS + 1) * MARGIN) / GRID_COLUMNS
      let thumb_height := thumb_width * first.img.height / first.img.width
      let info_header_height := FONT_SIZE * 5 + 20
      let sheet_height := GRID_ROWS * (thumb_height + MARGIN) + MARGIN + info_header_height
      let y0 := (header_lines video_path info).foldl (fun y _ => y + (FONT_SIZE + 2)) MARGIN + 8
      some
        { width := SHEET_WIDTH
          height := sheet_height
          placements := grid_placements thumb_width thumb_height y0 0 thumbnails }

/-! ## `process_video`

The derived output path, the idempotence check and the pipeline stages.  The
environment carries the externally determined outcomes: which paths exist,
the probe result for this input, the extraction outcome per timestamp, later
image failures, and whether `sheet.save` succeeds. -/

def output_path (video_path : String) : String :=
  (splitext video_path).1 ++ "_sheet.jpg"

inductive Ev
  | probe
  | extract (ts : ℚ)
  | compose
  | write
  deriving DecidableEq

inductive PVResult
  | skipped
  | success
  | probe_failed
  | extract_failed
  | compose_failed
  | write_failed
  deriving DecidableEq

/-- The boolean the Python function actually returns: `True` for both the
skip path and the success path, `False` for every failure. -/
def PVResult.toBool : PVResult → Bool
  | .skipped => true
  | .success => true
  | _ => false

structure PipeEnv where
  fs : String → Bool
  probe : Option VideoInfo
  extract : ℚ → Option Img
  broken : ℚ → Bool
  write_ok : Bool

def process_video (env : PipeEnv) (video_path : String) :
    PVResult × List Ev × (String → Bool) :=
  let out := output_path video_path
  if env.fs out then (.skipped, [], env.fs)
  else
    match env.probe with
    | none => (.probe_failed, [.probe], env.fs)
    | some info =>
      let timestamps := generate_timestamps info.duration (GRID_COLUMNS * GRID_ROWS)
      let evs := Ev.probe :: timestamps.map Ev.extract
      let thumbs := timestamps.filterMap
        (fun t => (env.extract t).map (fun im => ⟨im, t, env.broken t⟩))
      if thumbs = [] then (.extract_failed, evs, env.fs)
      else
        match build_sheet video_path thumbs info with
        | none => (.compose_failed, evs ++ [.compose], env.fs)
        | some _ =>
          if env.write_ok then
            (.success, evs ++ [.compose, .write], fun p => if p = out then true else env.fs p)
          else (.write_failed, evs ++ [.compose, .write], env.fs)

/-! ## `find_video_files` and `process_folder` -/

/-- `find_video_files`: `listing` is the outcome of `os.listdir` (raising is
caught and yields the empty accumulator), `isfile` is `os.path.isfile`. -/
def find_video_files (folder_path : String) (listing : Except String (List String))
    (isfile : String → Bool) : List String :=
  match listing with
  | .error _ => []
  | .ok entries =>
    entries.filterMap (fun f =>
      let file_path := osJoin folder_path f
      if isfile file_path then
        if pyLower (splitext f).2 ∈ VIDEO_EXTENSIONS then some file_path else none
      else none)

structure BatchResult where
  total : ℕ
  successful : ℕ
  failed : ℕ
  deriving DecidableEq

/-- The result-collection loop of `process_folder`: `future.result()` either
returns the worker's boolean or re-raises its unexpected exception; `True`
increments `successful`, `False` and exceptions increment `failed`.  The
counts are order-independent, so folding in submission order also models the
nondeterministic `as_completed` order. -/
def count_step (acc : ℕ × ℕ) (r : Except String Bool) : ℕ × ℕ :=
  match r with
  | .ok true => (acc.1 + 1, acc.2)
  | .ok false => (acc.1, acc.2 + 1)
  | .error _ => (acc.1, acc.2 + 1)

def count_outcomes (results : List (Except String Bool)) : ℕ × ℕ :=
  results.foldl count_step (0, 0)

/-- Whether a worker's completion counts as successful: its boolean, with an
unexpected exception counting as `False`. -/
def outcome_ok (r : Except String Bool) : Bool :=
  match r with
  | .ok b => b
  | .error _ => false

/-- `process_folder`: discovery followed by one `process_video` per file;
`run` gives each worker's outcome (`Except` for an unexpected exception). -/
def process_folder (folder_path : String) (listing : Except String (List String))
    (isfile : String → Bool) (run : String → Except String PVResult) : BatchResult :=
  let video_files := find_video_files folder_path listing isfile
  let results := video_files.map (fun p => (run p).map PVResult.toBool)
  { total := video_files.length
    successful := (count_outcomes results).1
    failed := (count_outcomes results).2 }

/-- 26 identical, healthy 640×360 thumbnails: one more than the 5×5 grid. -/
def cexThumbs : List Thumb :=
  List.replicate 26 ⟨⟨640, 360⟩, 0, false⟩

def cexInfo : VideoInfo :=
  ⟨0, "640x360", "1.00 MB", "h264"⟩

/-! ## Helper lemmas -/

theorem breakAtFirst_of_not_mem {c : Char} {l : List Char} (h : c ∉ l) :
    breakAtFirst c l = none := by
  induction l with
  | nil => rfl
  | cons x xs ih =>
    rw [List.mem_cons, not_or] at h
    rw [breakAtFirst, if_neg (fun e => h.1 e.symm), ih h.2]

theorem breakAtFirst_append {c : Char} {l2 : List Char} {l1 : List Char} (h : c ∉ l1) :
    breakAtFirst c (l1 ++ c :: l2) = some (l1, l2) := by
  induction l1 with
  | nil => simp [breakAtFirst]
  | cons x xs ih =>
    rw [List.mem_cons, not_or] at h
    rw [List.cons_append, breakAtFirst, if_neg (fun e => h.1 e.symm), ih h.2]

theorem splitOnLast_of_not_mem {c : Char} {l : List Char} (h : c ∉ l) :
    splitOnLast c l = none := by
  rw [splitOnLast, breakAtFirst_of_not_mem (by simpa using h)]

theorem splitOnLast_append {c : Char} {l1 l2 : List Char} (h : c ∉ l2) :
    splitOnLast c (l1 ++ c :: l2) = some (l1, l2) := by
  have hrev : (l1 ++ c :: l2).reverse = l2.reverse ++ c :: l1.reverse := by
    simp [List.reverse_append]
  rw [splitOnLast, hrev, breakAtFirst_append (by simpa using h)]
  simp

theorem grid_placements_coords {tw th y0 : ℕ} {l : List Thumb} {k : ℕ} {pl : Placement}
    (h : pl ∈ grid_placements tw th y0 k l) :
    pl.w = tw ∧ pl.h = th ∧
      pl.x = MARGIN + (pl.idx % GRID_COLUMNS) * (tw + MARGIN) ∧
      pl.y = y0 + (pl.idx / GRID_COLUMNS) * (th + MARGIN) ∧ k ≤ pl.idx := by
  induction l generalizing k with
  | nil => simp [grid_placements] at h
  | cons t rest ih =>
    rw [grid_placements, List.mem_append] at h
    rcases h with h | h
    · cases ht : t.broken with
      | true => simp [ht] at h
      | false =>
        simp only [ht, Bool.false_eq_true, if_false, List.mem_singleton] at h
        subst h
        exact ⟨rfl, rfl, rfl, rfl, le_refl _⟩
    · obtain ⟨h1, h2, h3, h4, h5⟩ := ih h
      exact ⟨h1, h2, h3, h4, le_of_lt (Nat.lt_of_succ_le h5)⟩

theorem grid_placements_complete {tw th y0 : ℕ} {l : List Thumb} {k i : ℕ}
    (hi : i < l.length) (hb : (l.get ⟨i, hi⟩).broken = false) :
    ({ idx := k + i
       x := MARGIN + ((k + i) % GRID_COLUMNS) * (tw + MARGIN)
       y := y0 + ((k + i) / GRID_COLUMNS) * (th + MARGIN)
       w := tw, h := th } : Placement) ∈ grid_placements tw th y0 k l := by
  induction l generalizing k i with
  | nil => exact absurd hi (by simp)
  | cons t rest ih =>
    rw [grid_placements, List.mem_append]
    cases i with
    | zero =>
      left
      simp only [List.get] at hb
      rw [hb]
      simp
    | succ j =>
      right
      have hj : j < rest.length := Nat.lt_of_succ_lt_succ hi
      have hb2 : (rest.get ⟨j, hj⟩).broken = false := hb
      have := ih (k := k + 1) hj hb2
      have hkj : k + 1 + j = k + (j + 1) := by omega
      rw [hkj] at this
      exact this

theorem count_fold {l : List (Except String Bool)} {a b : ℕ} :
    l.foldl count_step (a, b) =
      (a + l.countP outcome_ok, b + l.countP (fun r => ! outcome_ok r)) := by
  induction l generalizing a b with
  | nil => simp
  | cons x xs ih =>
    cases x with
    | ok v =>
      cases v with
      | true =>
        rw [List.foldl_cons]
        show xs.foldl count_step (a + 1, b) = _
        rw [ih]
        simp [List.countP_cons, outcome_ok]
        omega
      | false =>
        rw [List.foldl_cons]
        show xs.foldl count_step (a, b + 1) = _
        rw [ih]
        simp [List.countP_cons, outcome_ok]
        omega
    | error e =>
      rw [List.foldl_cons]
      show xs.foldl count_step (a, b + 1) = _
      rw [ih]
      simp [List.countP_cons, outcome_ok]
      omega

theorem countP_split (l : List (Except String Bool)) :
    l.countP outcome_ok + l.countP (fun r => ! outcome_ok r) = l.length := by
  induction l with
  | nil => rfl
  | cons x xs ih =>
    by_cases hx : outcome_ok x = true
    · simp [List.countP_cons, hx]
      omega
    · simp [List.countP_cons, hx]
      omega

theorem pathDirBase_snd_append {d f : List Char} (hf : '/' ∉ f) :
    (pathDirBase (d ++ '/' :: f)).2 = f := by
  rw [pathDirBase, splitOnLast_append hf]

theorem pathDirBase_snd_no_sep {f : List Char} (hf : '/' ∉ f) : (pathDirBase f).2 = f := by
  rw [pathDirBase, splitOnLast_of_not_mem hf]

/-- The extension component of `splitext` depends only on the basename. -/
theorem splitextData_snd_eq {p q : List Char} (h : (pathDirBase p).2 = (pathDirBase q).2) :
    (splitextData p).2 = (splitextData q).2 := by
  rw [splitextData, splitextData, h]
  cases splitOnLast '.' (pathDirBase q).2 with
  | none => rfl
  | some pr =>
    cases pr with
    | mk pre post =>
      by_cases hp : pre.any (fun c => c != '.') = true
      · simp [hp]
      · simp [hp]

/-- Joining a separator-free entry name onto a folder does not change the
extension that `splitext` computes. -/
theorem splitext_osJoin {folder f : String} (hf : '/' ∉ f.data) :
    (splitext (osJoin folder f)).2 = (splitext f).2 := by
  have hbase : (pathDirBase (osJoin folder f).data).2 = (pathDirBase f.data).2 := by
    rw [pathDirBase_snd_no_sep hf]
    have hhead : ¬ f.data.head? = some '/' := by
      intro he
      cases hd : f.data with
      | nil => rw [hd] at he; exact Option.noConfusion he
      | cons x xs =>
        rw [hd] at he
        have : x = '/' := by simpa using he
        exact hf (by rw [hd, this]; exact List.mem_cons_self _ _)
    rw [osJoin, if_neg hhead]
    by_cases hj : folder = "" ∨ folder.data.getLast? = some '/'
    · rw [if_pos hj]
      rcases hj with hj | hj
      · have : folder.data = [] := by rw [hj]
        show (pathDirBase (folder ++ f).data).2 = f.data
        rw [String.data_append, this, List.nil_append, pathDirBase_snd_no_sep hf]
      · obtain ⟨init, hinit⟩ := List.getLast?_eq_some_iff.mp hj
        show (pathDirBase (folder ++ f).data).2 = f.data
        rw [String.data_append, hinit, List.append_assoc, List.singleton_append,
          pathDirBase_snd_append hf]
    · rw [if_neg hj]
      show (pathDirBase (folder ++ "/" ++ f).data).2 = f.data
      rw [String.data_append, String.data_append]
      have : folder.data ++ "/".data ++ f.data = folder.data ++ '/' :: f.data := by
        simp [List.append_assoc]
      rw [this, pathDirBase_snd_append hf]
  show (⟨(splitextData (osJoin folder f).data).2⟩ : String) = (⟨(splitextData f.data).2⟩ : String)
  rw [splitextData_snd_eq hbase]

/-! ## Claims -/

/-- C1: for every duration > 0 and count > 0, `generate_timestamps` returns
exactly `count` strictly increasing values, all strictly inside `(0, duration)`,
with uniform spacing `duration/(count+2)` and `sample[i] = gap*(i+1)`; for
duration ≤ 0 it returns `count` copies of `0`. -/
theorem C1_generate_timestamps :
    (∀ (d : ℚ) (c : ℕ), 0 < d → 0 < c →
      (generate_timestamps d c).length = c ∧
      (∀ i (hi : i < (generate_timestamps d c).length),
        (generate_timestamps d c).get ⟨i, hi⟩ = d / ((c : ℚ) + 2) * ((i : ℚ) + 1)) ∧
      (generate_timestamps d c).Pairwise (· < ·) ∧
      (∀ x ∈ generate_timestamps d c, 0 < x ∧ x < d) ∧
      (∀ i (h1 : i + 1 < (generate_timestamps d c).length)
          (h0 : i < (generate_timestamps d c).length),
        (generate_timestamps d c).get ⟨i + 1, h1⟩ - (generate_timestamps d c).get ⟨i, h0⟩ =
          d / ((c : ℚ) + 2))) ∧
    (∀ (d : ℚ) (c : ℕ), d ≤ 0 → generate_timestamps d c = List.replicate c 0) := by
  constructor
  · intro d c hd _hc
    have hne : ¬ d ≤ 0 := not_le.mpr hd
    have hgts : generate_timestamps d c =
        (List.range c).map (fun i : ℕ => d / ((c : ℚ) + 2) * ((i : ℚ) + 1)) := by
      rw [generate_timestamps, if_neg hne]
    have hc2 : (0 : ℚ) < (c : ℚ) + 2 := by positivity
    have hgap : 0 < d / ((c : ℚ) + 2) := div_pos hd hc2
    refine ⟨?_, ?_, ?_, ?_, ?_⟩
    · rw [hgts]; simp
    · intro i hi
      rw [List.get_of_eq hgts]
      simp [List.get_eq_getElem, List.getElem_map, List.getElem_range]
    · rw [hgts]
      refine List.Pairwise.map _ (fun a b hab => ?_) (List.pairwise_lt_range c)
      have : ((a : ℚ) + 1) < ((b : ℚ) + 1) := by
        have : (a : ℚ) < (b : ℚ) := by exact_mod_cast hab
        linarith
      exact mul_lt_mul_of_pos_left this hgap
    · intro x hx
      rw [hgts] at hx
      obtain ⟨i, hi, rfl⟩ := List.mem_map.mp hx
      rw [List.mem_range] at hi
      constructor
      · exact mul_pos hgap (by positivity)
      · have hic : ((i : ℚ) + 1) < (c : ℚ) + 2 := by
          have : (i : ℚ) < (c : ℚ) := by exact_mod_cast hi
          linarith
        calc d / ((c : ℚ) + 2) * ((i : ℚ) + 1)
            < d / ((c : ℚ) + 2) * ((c : ℚ) + 2) := mul_lt_mul_of_pos_left hic hgap
          _ = d := div_mul_cancel₀ d (ne_of_gt hc2)
    · intro i h1 h0
      rw [List.get_of_eq hgts, List.get_of_eq hgts]
      simp only [List.get_eq_getElem, Fin.coe_cast, List.getElem_map, List.getElem_range]
      push_cast
      ring
  · intro d c hd
    rw [generate_timestamps, if_pos hd]

/-- Witness for C1 at duration 7, count 3. -/
theorem C1_generate_timestamps_witness : (generate_timestamps 7 3).length = 3 :=
  ((C1_generate_timestamps.1 7 3 (by norm_num) (by norm_num))).1

/-- C7: `build_sheet` on an empty thumbnail sequence fails (returns `None`)
and produces no sheet. -/
theorem C7_build_sheet_empty :
    ∀ (video_path : String) (info : VideoInfo), build_sheet video_path [] info = none :=
  fun _ _ => rfl

/-- C9: `format_timestamp (h*3600 + m*60 + s)` produces the zero-padded
`HH:MM:SS` rendering for `0 ≤ m, s < 60`, the fields are obtained by integer
division, and the two quoted examples hold. -/
theorem C9_format_timestamp :
    (∀ (h m s : ℕ), m < 60 → s < 60 →
      format_timestamp (((h * 3600 + m * 60 + s : ℕ) : ℚ)) =
        pad2 (h : ℤ) ++ ":" ++ pad2 (m : ℤ) ++ ":" ++ pad2 (s : ℤ)) ∧
    format_timestamp (3661 : ℚ) = "01:01:01" ∧
    format_timestamp (59 : ℚ) = "00:00:59" ∧
    (∀ n : ℕ, format_timestamp ((n : ℕ) : ℚ) =
      pad2 ((n / 3600 : ℕ) : ℤ) ++ ":" ++ pad2 ((n / 60 % 60 : ℕ) : ℤ) ++ ":" ++
        pad2 ((n % 60 : ℕ) : ℤ)) := by
  have htr : ∀ n : ℕ, truncQ ((n : ℕ) : ℚ) = ((n : ℕ) : ℤ) := by
    intro n
    rw [truncQ, if_pos (by positivity)]
    exact_mod_cast Int.floor_natCast n
  have hmain : ∀ (h m s : ℕ), m < 60 → s < 60 →
      format_timestamp (((h * 3600 + m * 60 + s : ℕ) : ℚ)) =
        pad2 (h : ℤ) ++ ":" ++ pad2 (m : ℤ) ++ ":" ++ pad2 (s : ℤ) := by
    intro h m s hm hs
    show pad2 (truncQ _ / 60 / 60) ++ ":" ++ pad2 (truncQ _ / 60 % 60) ++ ":" ++
        pad2 (truncQ _ % 60) = _
    rw [htr]
    have e1 : ((h * 3600 + m * 60 + s : ℕ) : ℤ) % 60 = (s : ℤ) := by push_cast; omega
    have e2 : ((h * 3600 + m * 60 + s : ℕ) : ℤ) / 60 % 60 = (m : ℤ) := by push_cast; omega
    have e3 : ((h * 3600 + m * 60 + s : ℕ) : ℤ) / 60 / 60 = (h : ℤ) := by push_cast; omega
    rw [e1, e2, e3]
  refine ⟨hmain, ?_, ?_, ?_⟩
  · have b1 : ((1 * 3600 + 1 * 60 + 1 : ℕ) : ℚ) = (3661 : ℚ) := by norm_num
    have e := hmain 1 1 1 (by norm_num) (by norm_num)
    rw [b1] at e
    rw [e]
    rfl
  · have b1 : ((0 * 3600 + 0 * 60 + 59 : ℕ) : ℚ) = (59 : ℚ) := by norm_num
    have e := hmain 0 0 59 (by norm_num) (by norm_num)
    rw [b1] at e
    rw [e]
    rfl
  · intro n
    show pad2 (truncQ _ / 60 / 60) ++ ":" ++ pad2 (truncQ _ / 60 % 60) ++ ":" ++
        pad2 (truncQ _ % 60) = _
    rw [htr]
    have e1 : ((n : ℕ) : ℤ) % 60 = ((n % 60 : ℕ) : ℤ) := by push_cast; omega
    have e2 : ((n : ℕ) : ℤ) / 60 % 60 = ((n / 60 % 60 : ℕ) : ℤ) := by push_cast; omega
    have e3 : ((n : ℕ) : ℤ) / 60 / 60 = ((n / 3600 : ℕ) : ℤ) := by push_cast; omega
    rw [e1, e2, e3]

/-- Witness for C9 at h = 1, m = 2, s = 3. -/
theorem C9_format_timestamp_witness :
    format_timestamp (((1 * 3600 + 2 * 60 + 3 : ℕ) : ℚ)) =
      pad2 (1 : ℤ) ++ ":" ++ pad2 (2 : ℤ) ++ ":" ++ pad2 (3 : ℤ) :=
  C9_format_timestamp.1 1 2 3 (by norm_num) (by norm_num)

/-- C8: every discovered file contributes to exactly one of the two counters
(`successful + failed = total`); a worker returning `True` — which `Skipped`
and `Success` both do — counts toward `successful`, a worker returning
`False` or raising counts toward `failed`. -/
theorem C8_process_folder_counts :
    ∀ (folder_path : String) (listing : Except String (List String))
      (isfile : String → Bool) (run : String → Except String PVResult),
      (process_folder folder_path listing isfile run).total =
        (find_video_files folder_path listing isfile).length ∧
      (process_folder folder_path listing isfile run).successful +
          (process_folder folder_path listing isfile run).failed =
        (process_folder folder_path listing isfile run).total ∧
      (process_folder folder_path listing isfile run).successful =
        ((find_video_files folder_path listing isfile).map
          (fun p => (run p).map PVResult.toBool)).countP outcome_ok ∧
      (process_folder folder_path listing isfile run).failed =
        ((find_video_files folder_path listing isfile).map
          (fun p => (run p).map PVResult.toBool)).countP (fun r => ! outcome_ok r) ∧
      PVResult.skipped.toBool = true ∧ PVResult.success.toBool = true ∧
      (∀ r : PVResult, r.toBool = true → r = .skipped ∨ r = .success) := by
  intro folder listing isfile run
  have hc : ∀ l : List (Except String Bool),
      count_outcomes l = (l.countP outcome_ok, l.countP (fun r => ! outcome_ok r)) := by
    intro l
    have h0 := @count_fold l 0 0
    simpa [count_outcomes] using h0
  refine ⟨rfl, ?_, ?_, ?_, rfl, rfl, ?_⟩
  · show (count_outcomes _).1 + (count_outcomes _).2 = List.length _
    rw [hc]
    exact (countP_split _).trans (List.length_map _ _)
  · show (count_outcomes _).1 = _
    rw [hc]
  · show (count_outcomes _).2 = _
    rw [hc]
  · intro r hr
    cases r <;> simp [PVResult.toBool] at hr ⊢

/-- Witness for C8 on a two-file listing with one worker exception. -/
theorem C8_process_folder_counts_witness :
    (process_folder "d" (Except.ok ["a.mp4", "b.mkv"]) (fun _ => true)
        (fun p => if p = "d/a.mp4" then Except.ok PVResult.success else Except.error "boom")).successful +
      (process_folder "d" (Except.ok ["a.mp4", "b.mkv"]) (fun _ => true)
        (fun p => if p = "d/a.mp4" then Except.ok PVResult.success else Except.error "boom")).failed =
      (process_folder "d" (Except.ok ["a.mp4", "b.mkv"]) (fun _ => true)
        (fun p => if p = "d/a.mp4" then Except.ok PVResult.success else Except.error "boom")).total :=
  (C8_process_folder_counts "d" (Except.ok ["a.mp4", "b.mkv"]) (fun _ => true)
    (fun p => if p = "d/a.mp4" then Except.ok PVResult.success else Except.error "boom")).2.1

/-- C10: `find_video_files` never raises — a failing directory listing yields
the empty list — and every returned path is built from a listed entry, passes
the regular-file check, and has a lower-cased extension from the fixed
allow-list (both as the entry's extension, which is what the code checks, and
as the returned path's extension whenever the entry is separator-free, as
`os.listdir` entries are). -/
theorem C10_find_video_files :
    ∀ (folder_path : String) (listing : Except String (List String)) (isfile : String → Bool),
      (∀ msg, listing = .error msg → find_video_files folder_path listing isfile = []) ∧
      (∀ p ∈ find_video_files folder_path listing isfile,
        isfile p = true ∧
        ∃ entries f, listing = .ok entries ∧ f ∈ entries ∧ p = osJoin folder_path f ∧
          pyLower (splitext f).2 ∈ VIDEO_EXTENSIONS ∧
          ('/' ∉ f.data → pyLower (splitext p).2 ∈ VIDEO_EXTENSIONS)) := by
  intro folder listing isfile
  constructor
  · intro msg hmsg
    rw [hmsg]
    rfl
  · intro p hp
    cases listing with
    | error e => simp [find_video_files] at hp
    | ok entries =>
      rw [find_video_files] at hp
      obtain ⟨f, hf, hpf⟩ := List.mem_filterMap.mp hp
      simp only at hpf
      split_ifs at hpf with h1 h2
      · have hpeq : osJoin folder f = p := by
          exact Option.some.inj hpf
        subst hpeq
        refine ⟨h1, entries, f, rfl, hf, rfl, h2, fun hsep => ?_⟩
        rw [splitext_osJoin hsep]
        exact h2

/-- Witness for C10 on a failing listing. -/
theorem C10_find_video_files_witness :
    find_video_files "x" (Except.error "boom") (fun _ => true) = [] :=
  (C10_find_video_files "x" (Except.error "boom") (fun _ => true)).1 "boom" rfl

/-- C3: the derived output path is the input's stem suffixed with
`_sheet.jpg` in the same directory; if a file at that path already exists,
`process_video` returns `Skipped` with an empty external-call trace (no
probe, extraction or composition) and an unchanged filesystem; and after a
run that skipped or succeeded, a second run of the pipeline on the same
input returns `Skipped` without invoking any stage, so running the pipeline
twice is idempotent. -/
theorem C3_process_video_skip_idempotent :
    ∀ (env : PipeEnv) (video_path : String),
      (∀ (d s e : String), '/' ∉ s.data → '/' ∉ e.data → '.' ∉ e.data →
        (∃ ch ∈ s.data, ch ≠ '.') →
        output_path (d ++ "/" ++ s ++ "." ++ e) = d ++ "/" ++ s ++ "_sheet.jpg") ∧
      (env.fs (output_path video_path) = true →
        process_video env video_path = (.skipped, [], env.fs)) ∧
      ((process_video env video_path).1 = .skipped ∨
          (process_video env video_path).1 = .success →
        process_video { env with fs := (process_video env video_path).2.2 } video_path =
          (.skipped, [], (process_video env video_path).2.2)) := by
  intro env video_path
  refine ⟨?_, ?_, ?_⟩
  · intro d s e hs he1 he2 hsome
    have h1 : ("/" : String).data = ['/'] := rfl
    have h2 : ("." : String).data = ['.'] := rfl
    have hdata : (d ++ "/" ++ s ++ "." ++ e).data =
        d.data ++ '/' :: (s.data ++ '.' :: e.data) := by
      simp [String.data_append, h1, h2]
    have hbase : '/' ∉ s.data ++ '.' :: e.data := by
      intro hmem
      rcases List.mem_append.mp hmem with hmem | hmem
      · exact hs hmem
      · rcases List.mem_cons.mp hmem with hmem | hmem
        · exact absurd hmem (by decide)
        · exact he1 hmem
    have hsplit : splitextData (d ++ "/" ++ s ++ "." ++ e).data =
        ((d.data ++ ['/']) ++ s.data, '.' :: e.data) := by
      rw [splitextData, pathDirBase, hdata, splitOnLast_append hbase]
      show (match splitOnLast '.' (s.data ++ '.' :: e.data) with
        | none => (d.data ++ '/' :: (s.data ++ '.' :: e.data), [])
        | some (pre, post) =>
          if pre.any (fun c => c != '.') then ((d.data ++ ['/']) ++ pre, '.' :: post)
          else (d.data ++ '/' :: (s.data ++ '.' :: e.data), [])) = _
      rw [splitOnLast_append he2]
      have hany : s.data.any (fun c => c != '.') = true := by
        obtain ⟨ch, hch, hne⟩ := hsome
        exact List.any_eq_true.mpr ⟨ch, hch, bne_iff_ne.mpr hne⟩
      show (if (s.data.any fun c => c != '.') = true
          then ((d.data ++ ['/']) ++ s.data, '.' :: e.data)
          else (d.data ++ '/' :: (s.data ++ '.' :: e.data), ([] : List Char))) = _
      rw [if_pos hany]
    show (⟨(splitextData (d ++ "/" ++ s ++ "." ++ e).data).1⟩ : String) ++ "_sheet.jpg" = _
    rw [hsplit]
    have hroot : (⟨(d.data ++ ['/']) ++ s.data⟩ : String) = d ++ "/" ++ s := by
      apply String.ext
      show (d.data ++ ['/']) ++ s.data = (d ++ "/" ++ s).data
      rw [String.data_append, String.data_append, h1]
    rw [hroot]
  · intro hex
    simp [process_video, hex]
  · intro hor
    by_cases hfs : env.fs (output_path video_path) = true
    · have h1 : process_video env video_path = (.skipped, [], env.fs) := by
        simp [process_video, hfs]
      rw [h1]
      simp [process_video, hfs]
    · have hfs' : env.fs (output_path video_path) = false := by
        simpa using hfs
      cases hpr : env.probe with
      | none =>
        have h1 : (process_video env video_path).1 = .probe_failed := by
          simp [process_video, hfs', hpr]
        rcases hor with h | h <;> rw [h1] at h <;> exact PVResult.noConfusion h
      | some info =>
        by_cases hth : (generate_timestamps info.duration (GRID_COLUMNS * GRID_ROWS)).filterMap
            (fun t => (env.extract t).map (fun im => (⟨im, t, env.broken t⟩ : Thumb))) = []
        · have h1 : (process_video env video_path).1 = .extract_failed := by
            simp [process_video, hfs', hpr, hth]
          rcases hor with h | h <;> rw [h1] at h <;> exact PVResult.noConfusion h
        · cases hbs : build_sheet video_path
              ((generate_timestamps info.duration (GRID_COLUMNS * GRID_ROWS)).filterMap
                (fun t => (env.extract t).map (fun im => (⟨im, t, env.broken t⟩ : Thumb)))) info with
          | none =>
            have h1 : (process_video env video_path).1 = .compose_failed := by
              simp [process_video, hfs', hpr, hth, hbs]
            rcases hor with h | h <;> rw [h1] at h <;> exact PVResult.noConfusion h
          | some S =>
            cases hw : env.write_ok with
            | false =>
              have h1 : (process_video env video_path).1 = .write_failed := by
                simp [process_video, hfs', hpr, hth, hbs, hw]
              rcases hor with h | h <;> rw [h1] at h <;> exact PVResult.noConfusion h
            | true =>
              have h2 : (process_video env video_path).2.2 =
                  fun p => if p = output_path video_path then true else env.fs p := by
                simp [process_video, hfs', hpr, hth, hbs, hw]
              rw [h2]
              simp [process_video]

/-- Witness for C3 on the path "a/b.mp4". -/
theorem C3_process_video_skip_idempotent_witness :
    output_path ("a" ++ "/" ++ "b" ++ "." ++ "mp4") = "a" ++ "/" ++ "b" ++ "_sheet.jpg" :=
  (C3_process_video_skip_idempotent
      ⟨fun _ => false, none, fun _ => none, fun _ => false, false⟩ "p").1
    "a" "b" "mp4" (by decide) (by decide) (by decide) (by decide)

/-- `build_sheet` on a healthy first thumbnail: the composed sheet, spelled
out. -/
theorem build_sheet_cons (video_path : String) (info : VideoInfo) (t : Thumb)
    (rest : List Thumb) (hb : t.broken = false) (hw : 0 < t.img.width) :
    build_sheet video_path (t :: rest) info = some
      { width := SHEET_WIDTH
        height := GRID_ROWS * ((SHEET_WIDTH - (GRID_COLUMNS + 1) * MARGIN) / GRID_COLUMNS *
            t.img.height / t.img.width + MARGIN) + MARGIN + (FONT_SIZE * 5 + 20)
        placements := grid_placements
          ((SHEET_WIDTH - (GRID_COLUMNS + 1) * MARGIN) / GRID_COLUMNS)
          ((SHEET_WIDTH - (GRID_COLUMNS + 1) * MARGIN) / GRID_COLUMNS *
            t.img.height / t.img.width)
          ((header_lines video_path info).foldl (fun y _ => y + (FONT_SIZE + 2)) MARGIN + 8)
          0 (t :: rest) } := by
  have hw0 : ¬ t.img.width = 0 := by omega
  simp [build_sheet, hb, hw0]

/-- The vertical offset where the grid begins: margin, five header lines of
pitch `FONT_SIZE + 2`, and the extra 8px gap. -/
theorem header_y0 (video_path : String) (info : VideoInfo) :
    (header_lines video_path info).foldl (fun y _ => y + (FONT_SIZE + 2)) MARGIN + 8 =
      MARGIN + 5 * (FONT_SIZE + 2) + 8 := by
  rw [header_lines]
  simp [List.foldl]
  omega

/-- C6: the layout arithmetic of `build_sheet`: fixed sheet width; cell width
`(W − (columns+1)·m) / columns`; cell height scaled from the first
thumbnail's height/width ratio and shared by every placement (uniform grid);
total height = header height (`FONT_SIZE·5 + 20`) + `rows·(cellH+m) + m`;
and row-major placement at `x = m + (i mod cols)·(cellW+m)`,
`y = headerBottom + (i div cols)·(cellH+m)` with
`headerBottom = m + 5·(FONT_SIZE+2) + 8`. -/
theorem C6_build_sheet_layout :
    ∀ (video_path : String) (info : VideoInfo) (t : Thumb) (rest : List Thumb),
      t.broken = false → 0 < t.img.width →
      ∃ S, build_sheet video_path (t :: rest) info = some S ∧
        S.width = SHEET_WIDTH ∧
        S.height = (FONT_SIZE * 5 + 20) +
          GRID_ROWS * ((SHEET_WIDTH - (GRID_COLUMNS + 1) * MARGIN) / GRID_COLUMNS *
            t.img.height / t.img.width + MARGIN) + MARGIN ∧
        (∀ pl ∈ S.placements,
          pl.w = (SHEET_WIDTH - (GRID_COLUMNS + 1) * MARGIN) / GRID_COLUMNS ∧
          pl.h = pl.w * t.img.height / t.img.width ∧
          pl.x = MARGIN + (pl.idx % GRID_COLUMNS) * (pl.w + MARGIN) ∧
          pl.y = (MARGIN + 5 * (FONT_SIZE + 2) + 8) +
            (pl.idx / GRID_COLUMNS) * (pl.h + MARGIN)) := by
  intro video_path info t rest hb hw
  refine ⟨_, build_sheet_cons video_path info t rest hb hw, rfl, by dsimp only; omega, ?_⟩
  intro pl hpl
  obtain ⟨h1, h2, h3, h4, -⟩ := grid_placements_coords hpl
  refine ⟨h1, ?_, ?_, ?_⟩
  · rw [h1]
    exact h2
  · rw [h1]
    exact h3
  · rw [h2]
    rw [h4, header_y0]

/-- Witness for C6 on a single 640×360 thumbnail. -/
theorem C6_build_sheet_layout_witness :
    (build_sheet "v6.mp4" [(⟨⟨640, 360⟩, 0, false⟩ : Thumb)] cexInfo).isSome = true := by
  obtain ⟨S, hS, -⟩ :=
    C6_build_sheet_layout "v6.mp4" cexInfo ⟨⟨640, 360⟩, 0, false⟩ [] rfl (by norm_num)
  rw [hS]
  rfl

/-- C4 counterexample: with 26 healthy thumbnails on the 5×5 grid, the item
at index 25 IS placed — the enumeration loop has no index guard — and its
paste position lies strictly above the bottom edge of the sheet (its top two
pixel rows land inside the canvas), refuting "items at index ≥ rows·columns
are not placed on the sheet". -/
theorem C4_counterexample :
    (build_sheet "v.mp4" cexThumbs cexInfo).elim false
      (fun S => S.placements.any (fun pl =>
        decide (GRID_ROWS * GRID_COLUMNS ≤ pl.idx) && decide (pl.y < S.height))) = true := by
  rfl

/-- C4 (amended): `build_sheet` pastes every non-broken thumbnail, including
those beyond the grid capacity; an excess item of the first overflow row is
pasted with its top edge exactly 2px above the sheet bottom (so all but its
top two pixel rows are clipped), and items two or more rows past the grid
lie entirely at or below the bottom edge; with fewer thumbnails than slots,
composition still succeeds and only the supplied indices are placed. -/
theorem C4_grid_overflow :
    ∀ (video_path : String) (info : VideoInfo) (t : Thumb) (rest : List Thumb),
      t.broken = false → 0 < t.img.width →
      ∃ S, build_sheet video_path (t :: rest) info = some S ∧
        (∀ i (hi : i < (t :: rest).length), ((t :: rest).get ⟨i, hi⟩).broken = false →
          ∃ pl ∈ S.placements, pl.idx = i) ∧
        (∀ pl ∈ S.placements, pl.idx < (t :: rest).length) ∧
        (∀ pl ∈ S.placements, GRID_ROWS * GRID_COLUMNS ≤ pl.idx → S.height ≤ pl.y + 2) ∧
        (∀ pl ∈ S.placements, (GRID_ROWS + 1) * GRID_COLUMNS ≤ pl.idx → S.height ≤ pl.y) := by
  intro video_path info t rest hb hw
  have hidxlt : ∀ {tw th y0 k : ℕ} {l : List Thumb} {pl : Placement},
      pl ∈ grid_placements tw th y0 k l → pl.idx < k + l.length := by
    intro tw th y0 k l
    induction l generalizing k with
    | nil => intro pl hpl; simp [grid_placements] at hpl
    | cons x xs ih =>
      intro pl hpl
      rw [grid_placements, List.mem_append] at hpl
      rcases hpl with hpl | hpl
      · cases hx : x.broken with
        | true => simp [hx] at hpl
        | false =>
          simp only [hx, Bool.false_eq_true, if_false, List.mem_singleton] at hpl
          subst hpl
          simp
      · have := ih hpl
        simp
        omega
  refine ⟨_, build_sheet_cons video_path info t rest hb hw, ?_, ?_, ?_, ?_⟩
  · intro i hi hbi
    exact ⟨_, @grid_placements_complete _ _ _ _ 0 i hi hbi, Nat.zero_add i⟩
  · intro pl hpl
    have := hidxlt hpl
    omega
  · intro pl hpl hidx
    obtain ⟨-, -, -, h4, -⟩ := grid_placements_coords hpl
    rw [h4, header_y0]
    dsimp only
    have hq : GRID_ROWS ≤ pl.idx / GRID_COLUMNS := by
      rw [GRID_ROWS, GRID_COLUMNS] at hidx ⊢
      exact (Nat.le_div_iff_mul_le (by norm_num)).mpr (by omega)
    have hmul : GRID_ROWS *
          ((SHEET_WIDTH - (GRID_COLUMNS + 1) * MARGIN) / GRID_COLUMNS *
            t.img.height / t.img.width + MARGIN) ≤
        (pl.idx / GRID_COLUMNS) *
          ((SHEET_WIDTH - (GRID_COLUMNS + 1) * MARGIN) / GRID_COLUMNS *
            t.img.height / t.img.width + MARGIN) :=
      Nat.mul_le_mul_right _ hq
    generalize (SHEET_WIDTH - (GRID_COLUMNS + 1) * MARGIN) / GRID_COLUMNS *
        t.img.height / t.img.width + MARGIN = C at hmul ⊢
    generalize (pl.idx / GRID_COLUMNS) * C = B at hmul ⊢
    generalize GRID_ROWS * C = A at hmul ⊢
    simp only [MARGIN, FONT_SIZE] at *
    omega
  · intro pl hpl hidx
    obtain ⟨-, -, -, h4, -⟩ := grid_placements_coords hpl
    rw [h4, header_y0]
    dsimp only
    have hq : GRID_ROWS + 1 ≤ pl.idx / GRID_COLUMNS := by
      rw [GRID_ROWS, GRID_COLUMNS] at hidx ⊢
      exact (Nat.le_div_iff_mul_le (by norm_num)).mpr (by omega)
    have hmul : (GRID_ROWS + 1) *
          ((SHEET_WIDTH - (GRID_COLUMNS + 1) * MARGIN) / GRID_COLUMNS *
            t.img.height / t.img.width + MARGIN) ≤
        (pl.idx / GRID_COLUMNS) *
          ((SHEET_WIDTH - (GRID_COLUMNS + 1) * MARGIN) / GRID_COLUMNS *
            t.img.height / t.img.width + MARGIN) :=
      Nat.mul_le_mul_right _ hq
    have hC : MARGIN ≤ (SHEET_WIDTH - (GRID_COLUMNS + 1) * MARGIN) / GRID_COLUMNS *
        t.img.height / t.img.width + MARGIN := Nat.le_add_left _ _
    generalize (SHEET_WIDTH - (GRID_COLUMNS + 1) * MARGIN) / GRID_COLUMNS *
        t.img.height / t.img.width + MARGIN = C at hmul hC ⊢
    generalize (pl.idx / GRID_COLUMNS) * C = B at hmul ⊢
    have hexp : (GRID_ROWS + 1) * C = GRID_ROWS * C + C := by ring
    rw [hexp] at hmul
    generalize GRID_ROWS * C = A at hmul ⊢
    simp only [MARGIN, FONT_SIZE] at *
    omega

/-- Witness for C4 on a single-thumbnail (fewer than slots) input. -/
theorem C4_grid_overflow_witness :
    (build_sheet "v4.mp4" [(⟨⟨320, 240⟩, 0, false⟩ : Thumb)] cexInfo).isSome = true := by
  obtain ⟨S, hS, -⟩ :=
    C4_grid_overflow "v4.mp4" cexInfo ⟨⟨320, 240⟩, 0, false⟩ [] rfl (by norm_num)
  rw [hS]
  rfl

/-- C2 counterexample: every sub-query executes successfully (exit 0 — the
duration query merely prints unparseable text) and the size lookup succeeds,
yet `get_video_info` returns `None` (a probe failure): the `float()` call
raises `ValueError`, which the generic `except` turns into a full probe
failure instead of degrading only the duration field. -/
theorem C2_counterexample :
    get_video_info ⟨some "oops", some "640", some "480", some "h264", some 1048576⟩ = none :=
  rfl

/-- C2 (amended): a sub-query that executes but prints empty output degrades
only its field (resolution/codec fall back to "Unknown", duration to 0) and
the probe still returns metadata; the probe fails exactly when some
sub-query raises (non-zero exit / missing tool), the size lookup raises, or
the duration text is non-empty but unparseable. -/
theorem C2_probe_degradation :
    ∀ env : ProbeEnv,
      (get_video_info env = none ↔
        env.durationRun = none ∨ env.widthRun = none ∨ env.heightRun = none ∨
          env.codecRun = none ∨ env.sizeRun = none ∨
          (∃ d, env.durationRun = some d ∧ pyStrip d ≠ "" ∧
            parseFloatQ (pyStrip d) = none)) ∧
      (∀ dOut wOut hOut cOut bytes q,
        env = ⟨some dOut, some wOut, some hOut, some cOut, some bytes⟩ →
        (if pyStrip dOut = "" then some (0 : ℚ) else parseFloatQ (pyStrip dOut)) = some q →
        get_video_info env = some
          { duration := q
            resolution := if pyStrip wOut ≠ "" ∧ pyStrip hOut ≠ "" then
                pyStrip wOut ++ "x" ++ pyStrip hOut
              else "Unknown"
            size := format2f ((bytes : ℚ) / (1024 * 1024)) ++ " MB"
            codec := if pyStrip cOut ≠ "" then pyStrip cOut else "Unknown" }) := by
  intro env
  obtain ⟨dr, wr, hr, cr, sr⟩ := env
  constructor
  · constructor
    · intro hnone
      cases dr with
      | none => exact Or.inl rfl
      | some d =>
        cases hparse : (if pyStrip d = "" then some (0 : ℚ) else parseFloatQ (pyStrip d)) with
        | none =>
          refine Or.inr (Or.inr (Or.inr (Or.inr (Or.inr ?_))))
          by_cases hde : pyStrip d = ""
          · rw [if_pos hde] at hparse
            exact Option.noConfusion hparse
          · rw [if_neg hde] at hparse
            exact ⟨d, rfl, hde, hparse⟩
        | some q =>
          cases wr with
          | none => exact Or.inr (Or.inl rfl)
          | some w =>
            cases hr with
            | none => exact Or.inr (Or.inr (Or.inl rfl))
            | some hh =>
              cases cr with
              | none => exact Or.inr (Or.inr (Or.inr (Or.inl rfl)))
              | some c =>
                cases sr with
                | none => exact Or.inr (Or.inr (Or.inr (Or.inr (Or.inl rfl))))
                | some b =>
                  exfalso
                  simp [get_video_info, hparse] at hnone
    · intro hdisj
      rcases hdisj with h | h | h | h | h | ⟨d, hd, hne, hpf⟩
      · have h2 : dr = none := h
        subst h2
        rfl
      · have h2 : wr = none := h
        subst h2
        cases dr with
        | none => rfl
        | some d =>
          cases hparse : (if pyStrip d = "" then some (0 : ℚ) else parseFloatQ (pyStrip d)) with
          | none => simp [get_video_info, hparse]
          | some q => simp [get_video_info, hparse]
      · have h2 : hr = none := h
        subst h2
        cases dr with
        | none => rfl
        | some d =>
          cases hparse : (if pyStrip d = "" then some (0 : ℚ) else parseFloatQ (pyStrip d)) with
          | none => simp [get_video_info, hparse]
          | some q =>
            cases wr with
            | none => simp [get_video_info, hparse]
            | some w => simp [get_video_info, hparse]
      · have h2 : cr = none := h
        subst h2
        cases dr with
        | none => rfl
        | some d =>
          cases hparse : (if pyStrip d = "" then some (0 : ℚ) else parseFloatQ (pyStrip d)) with
          | none => simp [get_video_info, hparse]
          | some q =>
            cases wr with
            | none => simp [get_video_info, hparse]
            | some w =>
              cases hr with
              | none => simp [get_video_info, hparse]
              | some hh => simp [get_video_info, hparse]
      · have h2 : sr = none := h
        subst h2
        cases dr with
        | none => rfl
        | some d =>
          cases hparse : (if pyStrip d = "" then some (0 : ℚ) else parseFloatQ (pyStrip d)) with
          | none => simp [get_video_info, hparse]
          | some q =>
            cases wr with
            | none => simp [get_video_info, hparse]
            | some w =>
              cases hr with
              | none => simp [get_video_info, hparse]
              | some hh =>
                cases cr with
                | none => simp [get_video_info, hparse]
                | some c => simp [get_video_info, hparse]
      · have h2 : dr = some d := hd
        subst h2
        have hparse : (if pyStrip d = "" then some (0 : ℚ) else parseFloatQ (pyStrip d)) =
            none := by
          rw [if_neg hne]
          exact hpf
        simp [get_video_info, hparse]
  · intro dOut wOut hOut cOut bytes q henv hq
    injection henv with h1 h2 h3 h4 h5
    subst h1
    subst h2
    subst h3
    subst h4
    subst h5
    simp [get_video_info, hq]

/-- Witness for C2: an empty height query output degrades resolution to
"Unknown" while the probe still returns metadata. -/
theorem C2_probe_degradation_witness :
    get_video_info ⟨some "", some "640", some "", some "h264", some 1048576⟩ = some
      { duration := (0 : ℚ)
        resolution := if pyStrip "640" ≠ "" ∧ pyStrip "" ≠ "" then
            pyStrip "640" ++ "x" ++ pyStrip ""
          else "Unknown"
        size := format2f (((1048576 : ℕ) : ℚ) / (1024 * 1024)) ++ " MB"
        codec := if pyStrip "h264" ≠ "" then pyStrip "h264" else "Unknown" } :=
  (C2_probe_degradation ⟨some "", some "640", some "", some "h264", some 1048576⟩).2
    "" "640" "" "h264" 1048576 0 rfl rfl

/-- The duration that `get_video_info` reports, characterized by the parse of
the duration query's stripped output. -/
theorem gvi_duration {dr wr hr cr sr : _} {dOut : String} {q : ℚ}
    (hd : dr = some dOut)
    (hq : (if pyStrip dOut = "" then some (0 : ℚ) else parseFloatQ (pyStrip dOut)) = some q) :
    ∀ info, get_video_info ⟨dr, wr, hr, cr, sr⟩ = some info → info.duration = q := by
  subst hd
  intro info hinfo
  cases wr with
  | none => simp [get_video_info, hq] at hinfo
  | some w =>
    cases hr with
    | none => simp [get_video_info, hq] at hinfo
    | some hh =>
      cases cr with
      | none => simp [get_video_info, hq] at hinfo
      | some c =>
        cases sr with
        | none => simp [get_video_info, hq] at hinfo
        | some b =>
          simp only [get_video_info, hq] at hinfo
          rw [← Option.some.inj hinfo]

/-- C5 counterexample: a non-empty but unparseable duration text makes the
whole probe fail (`None`) — the duration does not degrade to 0; only *empty*
text degrades to 0. -/
theorem C5_counterexample :
    get_video_info ⟨some " 12.x ", some "1920", some "1080", some "h264", some 5000000⟩ =
      none :=
  rfl

/-- C5 (amended): the duration is parsed as a float from the trimmed text of
the duration query; empty trimmed text yields duration 0 with the probe
succeeding, a successful parse yields the parsed value, and non-empty
unparseable text makes `get_video_info` fail with `None`. -/
theorem C5_duration_parse :
    ∀ (env : ProbeEnv) (dOut : String), env.durationRun = some dOut →
      (pyStrip dOut = "" → ∀ info, get_video_info env = some info → info.duration = 0) ∧
      (∀ q, parseFloatQ (pyStrip dOut) = some q →
        ∀ info, get_video_info env = some info → info.duration = q) ∧
      (pyStrip dOut ≠ "" → parseFloatQ (pyStrip dOut) = none → get_video_info env = none) := by
  intro env dOut hd
  obtain ⟨dr, wr, hr, cr, sr⟩ := env
  have hd2 : dr = some dOut := hd
  refine ⟨?_, ?_, ?_⟩
  · intro he
    exact gvi_duration hd2 (by rw [if_pos he])
  · intro q hq
    by_cases he : pyStrip dOut = ""
    · rw [he] at hq
      have hy : parseFloatQ "" = none := rfl
      rw [hy] at hq
      exact Option.noConfusion hq
    · exact gvi_duration hd2 (by rw [if_neg he]; exact hq)
  · intro he hn
    subst hd2
    have hparse : (if pyStrip dOut = "" then some (0 : ℚ) else parseFloatQ (pyStrip dOut)) =
        none := by
      rw [if_neg he]
      exact hn
    simp [get_video_info, hparse]

/-- Witness for C5 on the unparseable duration text "abc". -/
theorem C5_duration_parse_witness :
    get_video_info ⟨some "abc", some "1", some "2", some "c", some 3⟩ = none :=
  (C5_duration_parse ⟨some "abc", some "1", some "2", some "c", some 3⟩ "abc" rfl).2.2
    (by decide) rfl

end VideoSheet
